import Mathlib

/-!
Verification of the diff-parsing engine and helpers of `git_diff/git_data.py`.

The Python functions `parse_diff`, `_finalize_file`, `_relative_time` and
`run_git` are shallowly embedded as executable Lean functions.  Lines are
lists of characters; Python dictionaries become structures; the mutable
scan state of `parse_diff` becomes an explicit `ParseState` threaded by a
fold over the input lines.  One point needs care: in the Python code the
variable `current_hunk` holds a reference to a dict that may already have
been appended to `current_hunks` (this happens when a line starting with
`@@` fails the hunk-header regex), so later mutations of `current_hunk`
are visible inside the list and a later flush appends the same dict again.
The embedding tracks this with `curAliases`: the number of times the
current hunk has already been appended to the hunk list; the flushed
occurrences are materialised (with the hunk's final value) when the hunk
is frozen.
-/

namespace GitDiff

/-- One diff body line, as built by `parse_diff`
(`{"type": ..., "content": ...}` in the source). -/
structure Line where
  type : String
  content : String
deriving DecidableEq, Repr

/-- One hunk dict as built by `parse_diff`. -/
structure Hunk where
  old_start : Nat
  old_count : Nat
  new_start : Nat
  new_count : Nat
  context : String
  lines : List Line
  additions : Nat
  deletions : Nat
deriving DecidableEq, Repr

/-- One file dict as built by `parse_diff`. -/
structure FileDiff where
  old_path : String
  new_path : String
  status : String
  hunks : List Hunk
  additions : Nat
  deletions : Nat
  is_binary : Bool
  is_new : Bool
  is_deleted : Bool
  old_mode : Option String
  new_mode : Option String
  similarity : Option Nat
deriving DecidableEq, Repr

/-- The dict returned by `parse_diff`. -/
structure DiffResult where
  files : List FileDiff
  total_files : Nat
  total_additions : Nat
  total_deletions : Nat
  stat_summary : String
deriving DecidableEq, Repr

/-- Python whitespace, as used by `str.split()` and `str.strip()`
(ASCII part; the inputs in question are ASCII). -/
def isWs (c : Char) : Bool :=
  c = ' ' || c = '\t' || c = '\n' || c = '\r' || c = '\x0b' || c = '\x0c'

/-- Boolean prefix test on character lists, modelling `str.startswith`. -/
def isPref : List Char → List Char → Bool
  | [], _ => true
  | _ :: _, [] => false
  | p :: ps, c :: cs => p == c && isPref ps cs

/-- `line.split()[-1]`: the last whitespace-separated token of a line
(total function; the call sites guarantee at least one token, and on an
all-whitespace line we return `""`). -/
def lastToken (l : List Char) : String :=
  String.mk (((l.reverse.dropWhile isWs).takeWhile (fun c => !(isWs c))).reverse)

/-- `str.strip()` on a character list. -/
def pyStrip (l : List Char) : List Char :=
  ((l.dropWhile isWs).reverse.dropWhile isWs).reverse

/-- `diff_raw.split("\n")`: split on every newline, keeping empty pieces.
`cur` is the (reversed) current piece. -/
def splitNlAux (cur : List Char) : List Char → List (List Char)
  | [] => [cur.reverse]
  | '\n' :: rest => cur.reverse :: splitNlAux [] rest
  | c :: rest => splitNlAux (c :: cur) rest

/-- `str.splitlines()` boundaries (after stripping, so without the
trailing-newline special case, this matches Python). -/
def splitLinesAux (cur : List Char) : List Char → List (List Char)
  | [] => [cur.reverse]
  | '\r' :: '\n' :: rest => cur.reverse :: splitLinesAux [] rest
  | '\n' :: rest => cur.reverse :: splitLinesAux [] rest
  | '\r' :: rest => cur.reverse :: splitLinesAux [] rest
  | c :: rest => splitLinesAux (c :: cur) rest

/-- `stat_raw.strip().splitlines()[-1] if stat_raw.strip() else ""`. -/
def statSummary (stat_raw : String) : String :=
  let s := pyStrip stat_raw.data
  if s = [] then "" else String.mk (((splitLinesAux [] s).getLast?).getD [])

/-- Value of a list of decimal digits (how `int()` reads the digits the
regexes capture). -/
def valD (ds : List Char) : Nat :=
  ds.foldl (fun a c => a * 10 + (c.toNat - 48)) 0

/-- Greedy `\d+` after its first digit: consume the maximal digit run,
extending the accumulator. -/
def takeDigitsAux : Nat → List Char → Nat × List Char
  | acc, [] => (acc, [])
  | acc, c :: cs =>
    if c.isDigit then takeDigitsAux (acc * 10 + (c.toNat - 48)) cs else (acc, c :: cs)

/-- Greedy `\d+`: at least one digit, maximal run, returning its value and
the rest of the input. -/
def takeDigits : List Char → Option (Nat × List Char)
  | [] => none
  | c :: cs => if c.isDigit then some (takeDigitsAux (c.toNat - 48) cs) else none

/-- The optional `(?:,(\d+))?` group of the hunk-header regex.  `none`
means the whole match fails (a comma not followed by digits can never be
matched by the rest of the pattern, whose next literal is a space);
`some (none, l)` means the group is absent. -/
def takeOptCount : List Char → Option (Option Nat × List Char)
  | ',' :: rest =>
    (match takeDigits rest with
     | some (n, r) => some (some n, r)
     | none => none)
  | l => some (none, l)

/-- Expect one literal character, returning the rest of the input. -/
def expectCh (c : Char) : List Char → Option (List Char)
  | x :: xs => if x = c then some xs else none
  | [] => none

/-- `re.match(r"@@ -(\d+)(?:,(\d+))? \+(\d+)(?:,(\d+))? @@(.*)", line)`,
already applying the `default 1` for omitted counts and `.strip()` on the
trailing context, as the source does. -/
def parseHunkHeader (l : List Char) : Option (Nat × Nat × Nat × Nat × String) :=
  match l with
  | '@' :: '@' :: ' ' :: '-' :: rest =>
    (match takeDigits rest with
     | none => none
     | some (os, r1) =>
       match takeOptCount r1 with
       | none => none
       | some (oc, r2) =>
         match expectCh ' ' r2 with
         | none => none
         | some r2a =>
           match expectCh '+' r2a with
           | none => none
           | some r3 =>
             match takeDigits r3 with
             | none => none
             | some (ns, r4) =>
               match takeOptCount r4 with
               | none => none
               | some (nc, r5) =>
                 match expectCh ' ' r5 with
                 | none => none
                 | some r5a =>
                   match expectCh '@' r5a with
                   | none => none
                   | some r5b =>
                     match expectCh '@' r5b with
                     | none => none
                     | some ctx =>
                       some (os, oc.getD 1, ns, nc.getD 1, String.mk (pyStrip ctx)))
  | _ => none

/-- The `a/(.+) b/(.+)` part of `re.match(r"diff --git a/(.+) b/(.+)", line)`:
with both groups greedy, the match splits at the last occurrence of `" b/"`
that leaves a non-empty tail; the head part must also be non-empty (checked
by the caller). -/
def matchAB : List Char → Option (List Char × List Char)
  | [] => none
  | c :: cs =>
    match matchAB cs with
    | some (pre, post) => some (c :: pre, post)
    | none =>
      if c = ' ' ∧ cs.take 2 = ['b', '/'] ∧ cs.drop 2 ≠ [] then some ([], cs.drop 2)
      else none

/-- `re.match(r"diff --git a/(.+) b/(.+)", line)`, returning `("", "")`
when the match fails, as the source then uses `""` for both paths. -/
def matchDiffGit (l : List Char) : String × String :=
  if isPref ("diff --git a/".data) l then
    match matchAB (l.drop 13) with
    | some (pre, post) =>
      if pre.isEmpty then ("", "") else (String.mk pre, String.mk post)
    | none => ("", "")
  else ("", "")

/-- `re.search(r"(\d+)%", line)` followed by `int(...)`: the first `%`
preceded by at least one digit yields the value of the maximal digit run
ending just before it. -/
def searchPctAux : Option Nat → List Char → Option Nat
  | run, [] => (match run with | _ => none)
  | run, c :: cs =>
    if c = '%' then
      match run with
      | some v => some v
      | none => searchPctAux none cs
    else if c.isDigit then
      searchPctAux (some ((run.getD 0) * 10 + (c.toNat - 48))) cs
    else searchPctAux none cs

/-- Entry point of the `%`-search. -/
def searchPct (l : List Char) : Option Nat :=
  searchPctAux none l

/-- A freshly opened file dict (`current_file = {...}` in the source). -/
def newFileDiff (op np : String) : FileDiff :=
  { old_path := op, new_path := np, status := "modified", hunks := [],
    additions := 0, deletions := 0, is_binary := false, is_new := false,
    is_deleted := false, old_mode := none, new_mode := none, similarity := none }

/-- `_finalize_file`: store the hunk list and recompute the per-file
addition/deletion totals from it. -/
def _finalize_file (f : FileDiff) (hunks : List Hunk) : FileDiff :=
  { f with hunks := hunks,
           additions := (hunks.map Hunk.additions).sum,
           deletions := (hunks.map Hunk.deletions).sum }

/-- The local state of the `parse_diff` scan loop.  `doneHunks` are the
flushed hunks no longer aliased by `curHunk`; `curAliases` counts how many
times the dict held in `curHunk` has already been appended to the Python
list `current_hunks` (normally 0; positive after a failed hunk-header
match flushed it while leaving `current_hunk` pointing at it). -/
structure ParseState where
  files : List FileDiff
  curFile : Option FileDiff
  doneHunks : List Hunk
  curHunk : Option Hunk
  curAliases : Nat
  inHunk : Bool
deriving DecidableEq, Repr

/-- Initial scan state. -/
def initState : ParseState :=
  ⟨[], none, [], none, 0, false⟩

/-- The value of the Python list `current_hunks` after the closing
`if current_hunk: current_hunks.append(current_hunk)`. -/
def finalHunks (s : ParseState) : List Hunk :=
  match s.curHunk with
  | some h => s.doneHunks ++ List.replicate (s.curAliases + 1) h
  | none => s.doneHunks

/-- Apply an update to the current file dict, if one is open. -/
def withFile (s : ParseState) (g : FileDiff → FileDiff) : ParseState :=
  { s with curFile := s.curFile.map g }

/-- Classification of a line by the body-line branch of `parse_diff`
(the final `elif in_hunk and current_hunk is not None` block). -/
inductive BodyAct where
  | ignore
  | add (c : List Char)
  | del (c : List Char)
  | ctx (c : List Char)
  | noeol (c : List Char)
  | drop
deriving DecidableEq, Repr

/-- The body-line branch's line classification: `---`/`+++` are ignored,
then `+`, `-`, space and backslash each strip their marker (`line[1:]`);
anything else falls off the end of the `elif` chain. -/
def bodyClassify (l : List Char) : BodyAct :=
  if isPref ['-', '-', '-'] l || isPref ['+', '+', '+'] l then .ignore
  else if isPref ['+'] l then .add (l.drop 1)
  else if isPref ['-'] l then .del (l.drop 1)
  else if isPref [' '] l then .ctx (l.drop 1)
  else if isPref ['\\'] l then .noeol (l.drop 1)
  else .drop

/-- Apply a body-line action to the open hunk (no-op when no hunk is
open, matching the `current_hunk is not None` guard). -/
def applyBody2 (s : ParseState) (a : BodyAct) : ParseState :=
  match s.curHunk with
  | none => s
  | some h =>
    match a with
    | .ignore => s
    | .drop => s
    | .add c =>
      { s with curHunk := some { h with lines := h.lines ++ [⟨"add", String.mk c⟩],
                                        additions := h.additions + 1 } }
    | .del c =>
      { s with curHunk := some { h with lines := h.lines ++ [⟨"del", String.mk c⟩],
                                        deletions := h.deletions + 1 } }
    | .ctx c =>
      { s with curHunk := some { h with lines := h.lines ++ [⟨"ctx", String.mk c⟩] } }
    | .noeol c =>
      { s with curHunk := some { h with lines := h.lines ++ [⟨"noeol", String.mk c⟩] } }

/-- The `@@` branch of `parse_diff`: first `if current_hunk:
current_hunks.append(current_hunk)` (modelled as an alias-count bump),
then, only if the header regex matches, open a fresh hunk (freezing the
old one, with all its appended occurrences, into `doneHunks`); in both
cases set `in_hunk = True`.  On a failed match `current_hunk` is left
pointing at the already-appended dict. -/
def hunkHeaderStep (s : ParseState) (l : List Char) : ParseState :=
  match parseHunkHeader l with
  | some (os, oc, ns, nc, ctx) =>
    { s with
      doneHunks := (match s.curHunk with
        | some h => s.doneHunks ++ List.replicate (s.curAliases + 1) h
        | none => s.doneHunks),
      curHunk := some ⟨os, oc, ns, nc, ctx, [], 0, 0⟩,
      curAliases := 0,
      inHunk := true }
  | none =>
    match s.curHunk with
    | some _ => { s with curAliases := s.curAliases + 1, inHunk := true }
    | none => { s with inHunk := true }

/-- Which branch of the `elif` chain (after the `diff --git` one) handles
a line, in the source's order; `hasFile`, `inHunk`, `hasHunk` stand for
the `and current_file` / `in_hunk and current_hunk is not None` guards. -/
inductive RestAct where
  | newFile | delFile | oldMode | newMode | binary | sim
  | renFrom | renTo | copyFrom | hunkHead | body | skip
deriving DecidableEq, Repr

/-- The dispatch of the `elif` chain (after the `diff --git` branch). -/
def classifyRest (hasFile inHunk hasHunk : Bool) (l : List Char) : RestAct :=
  if isPref ("new file mode".data) l && hasFile then .newFile
  else if isPref ("deleted file mode".data) l && hasFile then .delFile
  else if isPref ("old mode".data) l && hasFile then .oldMode
  else if isPref ("new mode".data) l && hasFile then .newMode
  else if isPref ("Binary files".data) l && hasFile then .binary
  else if isPref ("similarity index".data) l && hasFile then .sim
  else if isPref ("rename from ".data) l && hasFile then .renFrom
  else if isPref ("rename to ".data) l && hasFile then .renTo
  else if isPref ("copy from ".data) l && hasFile then .copyFrom
  else if isPref ("@@".data) l && hasFile then .hunkHead
  else if inHunk && hasHunk then .body
  else .skip

/-- Every branch of the `parse_diff` loop except the `diff --git` one,
with the action of each `elif` branch. -/
def stepRest (s : ParseState) (l : List Char) : ParseState :=
  match classifyRest s.curFile.isSome s.inHunk s.curHunk.isSome l with
  | .newFile =>
    withFile s (fun f => { f with is_new := true, status := "added",
                                  new_mode := some (lastToken l) })
  | .delFile => withFile s (fun f => { f with is_deleted := true, status := "deleted" })
  | .oldMode => withFile s (fun f => { f with old_mode := some (lastToken l) })
  | .newMode => withFile s (fun f => { f with new_mode := some (lastToken l) })
  | .binary => withFile s (fun f => { f with is_binary := true })
  | .sim =>
    (match searchPct l with
     | some n => withFile s (fun f => { f with similarity := some n })
     | none => s)
  | .renFrom =>
    withFile s (fun f => { f with old_path := String.mk (l.drop 12), status := "renamed" })
  | .renTo =>
    withFile s (fun f => { f with new_path := String.mk (l.drop 10), status := "renamed" })
  | .copyFrom => withFile s (fun f => { f with status := "copied" })
  | .hunkHead => hunkHeaderStep s l
  | .body => applyBody2 s (bodyClassify l)
  | .skip => s

/-- One iteration of the `parse_diff` loop on one line. -/
def stepLine (s : ParseState) (l : List Char) : ParseState :=
  if isPref ("diff --git ".data) l then
    { files := (match s.curFile with
        | some f => s.files ++ [_finalize_file f (finalHunks s)]
        | none => s.files),
      curFile := some (newFileDiff (matchDiffGit l).1 (matchDiffGit l).2),
      doneHunks := [], curHunk := none, curAliases := 0, inHunk := false }
  else stepRest s l

/-- `parse_diff(diff_raw, stat_raw="")`. -/
def parse_diff (diff_raw : String) (stat_raw : String) : DiffResult :=
  let st := (splitNlAux [] diff_raw.data).foldl stepLine initState
  let files := (match st.curFile with
    | some f => st.files ++ [_finalize_file f (finalHunks st)]
    | none => st.files)
  { files := files,
    total_files := files.length,
    total_additions := (files.map FileDiff.additions).sum,
    total_deletions := (files.map FileDiff.deletions).sum,
    stat_summary := statSummary stat_raw }

/-- The prefixes recognised by the `elif` chain before the body-line
branch: a line matching none of these (with a file open and a hunk open)
falls through to the body-line classification. -/
def headerish (l : List Char) : Bool :=
  isPref ("diff --git ".data) l || isPref ("new file mode".data) l ||
  isPref ("deleted file mode".data) l || isPref ("old mode".data) l ||
  isPref ("new mode".data) l || isPref ("Binary files".data) l ||
  isPref ("similarity index".data) l || isPref ("rename from ".data) l ||
  isPref ("rename to ".data) l || isPref ("copy from ".data) l ||
  isPref ("@@".data) l

/-- True when the line does not start with one of the four body markers
`+`, `-`, space, backslash (the empty line included). -/
def noMarkerHead : List Char → Bool
  | [] => true
  | c :: _ => !('+' == c || '-' == c || ' ' == c || '\\' == c)

/-- Outcome of the `subprocess.run` call inside `run_git`: normal
completion (with captured stdout and exit code), `TimeoutExpired`,
`FileNotFoundError`, or any other exception. -/
inductive SubprocOutcome where
  | completed (stdout : String) (exitcode : Nat)
  | timeoutExpired
  | fileNotFound
  | otherError
deriving DecidableEq, Repr

/-- Result of `run_git`: a returned string, or a propagated
`RuntimeError`. -/
inductive RunGitResult where
  | ok (stdout : String)
  | error (msg : String)
deriving DecidableEq, Repr

/-- `run_git(args, cwd, check, timeout)` as a function of the subprocess
outcome and the `check` flag.  With `check=True` a non-zero exit makes
`subprocess.run` raise `CalledProcessError`, which the generic
`except Exception` turns into `""`; without `check` the captured stdout
is returned whatever the exit code was.  `TimeoutExpired` gives `""`;
`FileNotFoundError` is re-raised as a `RuntimeError`. -/
def run_git (outcome : SubprocOutcome) (check : Bool) : RunGitResult :=
  match outcome with
  | .completed out code =>
    if check ∧ code ≠ 0 then .ok ""
    else .ok out
  | .timeoutExpired => .ok ""
  | .fileNotFound =>
    .error "git not found. Please install git and ensure it is in your PATH."
  | .otherError => .ok ""

/-- `_relative_time(ts)`, with the implicit `datetime.now().timestamp()`
made an explicit `now` argument; both are epoch seconds.  Python's `//`
on the (non-negative in every reached branch) difference is `Int.ediv`. -/
def _relative_time (now ts : Nat) : String :=
  if ts = 0 then ""
  else if (now : Int) - (ts : Int) < 60 then "just now"
  else if (now : Int) - (ts : Int) < 3600 then
    toString (Int.ediv ((now : Int) - (ts : Int)) 60) ++ " minute" ++
      (if Int.ediv ((now : Int) - (ts : Int)) 60 ≠ 1 then "s" else "") ++ " ago"
  else if (now : Int) - (ts : Int) < 86400 then
    toString (Int.ediv ((now : Int) - (ts : Int)) 3600) ++ " hour" ++
      (if Int.ediv ((now : Int) - (ts : Int)) 3600 ≠ 1 then "s" else "") ++ " ago"
  else if (now : Int) - (ts : Int) < 604800 then
    toString (Int.ediv ((now : Int) - (ts : Int)) 86400) ++ " day" ++
      (if Int.ediv ((now : Int) - (ts : Int)) 86400 ≠ 1 then "s" else "") ++ " ago"
  else if (now : Int) - (ts : Int) < 2592000 then
    toString (Int.ediv ((now : Int) - (ts : Int)) 604800) ++ " week" ++
      (if Int.ediv ((now : Int) - (ts : Int)) 604800 ≠ 1 then "s" else "") ++ " ago"
  else if (now : Int) - (ts : Int) < 31536000 then
    toString (Int.ediv ((now : Int) - (ts : Int)) 2592000) ++ " month" ++
      (if Int.ediv ((now : Int) - (ts : Int)) 2592000 ≠ 1 then "s" else "") ++ " ago"
  else
    toString (Int.ediv ((now : Int) - (ts : Int)) 31536000) ++ " year" ++
      (if Int.ediv ((now : Int) - (ts : Int)) 31536000 ≠ 1 then "s" else "") ++ " ago"

end GitDiff

namespace GitDiff

/-- C9: a file section containing `Binary files a/x.png and b/x.png differ`
and no hunk headers parses to a `FileDiff` with `is_binary = true` and an
empty hunk sequence. -/
theorem claim_C9_binary :
    parse_diff "diff --git a/x.png b/x.png\nBinary files a/x.png and b/x.png differ" "" =
      ⟨[{ newFileDiff "x.png" "x.png" with is_binary := true }], 1, 0, 0, ""⟩ := by
  decide

/-- C3, counterexample: a file section containing only a `rename from` line
(and no `rename to` line) already gets `status = "renamed"`, refuting the
claim that the renamed status is committed only when both lines are
present. -/
theorem claim_C3_counterexample :
    (parse_diff "diff --git a/a.txt b/b.txt\nrename from a.txt" "").files.map
        FileDiff.status = ["renamed"] := by
  decide

/-- C3, amended: `rename from a.txt` followed by `rename to b.txt` yields
`status = "renamed"`, `old_path = "a.txt"`, `new_path = "b.txt"`; but each
of the two lines alone also sets `status = "renamed"` (updating only its
own path field). -/
theorem claim_C3_rename_amended :
    (parse_diff "diff --git a/a.txt b/b.txt\nrename from a.txt\nrename to b.txt" "" =
      ⟨[{ newFileDiff "a.txt" "b.txt" with status := "renamed" }], 1, 0, 0, ""⟩) ∧
    ((parse_diff "diff --git a/c.txt b/d.txt\nrename from c.txt" "").files.map
        (fun f => (f.status, f.old_path, f.new_path)) = [("renamed", "c.txt", "d.txt")]) ∧
    ((parse_diff "diff --git a/c.txt b/d.txt\nrename to d.txt" "").files.map
        (fun f => (f.status, f.old_path, f.new_path)) = [("renamed", "c.txt", "d.txt")]) := by
  refine ⟨by decide, by decide, by decide⟩

/-- C2: evaluation of `parse_diff` at the failing input.  After the valid
hunk `@@ -1 +1 @@` and its body line `+a`, the malformed header
`@@ bad @@` flushes the open hunk but leaves `current_hunk` pointing at
the flushed dict, so the following body line `+b` is appended to that
already-listed hunk and the end-of-input flush appends the same hunk a
second time: the claim's promise that `+b` is dropped fails, and the file
ends with the duplicated hunk and `additions = 4` for two `+` lines. -/
theorem claim_C2_malformed_hunk_eval :
    parse_diff "diff --git a/f b/f\n@@ -1 +1 @@\n+a\n@@ bad @@\n+b" "" =
      ⟨[{ newFileDiff "f" "f" with
            hunks := [⟨1, 1, 1, 1, "", [⟨"add", "a"⟩, ⟨"add", "b"⟩], 2, 0⟩,
                      ⟨1, 1, 1, 1, "", [⟨"add", "a"⟩, ⟨"add", "b"⟩], 2, 0⟩],
            additions := 4 }], 1, 4, 0, ""⟩ := by
  decide

/-- C4: `parse_diff` is total — it is a plain Lean function returning a
`DiffResult` on every input (the embedding has no failure path, matching
the absence of any raise in the source); on the empty string it returns
the empty result, and on truncated input it still returns a result. -/
theorem claim_C4_parse_total :
    (∀ raw stat : String, ∃ r : DiffResult, parse_diff raw stat = r) ∧
    parse_diff "" "" = ⟨[], 0, 0, 0, ""⟩ ∧
    parse_diff "diff --git a/f b/f\n@@ -1" "" = ⟨[newFileDiff "f" "f"], 1, 0, 0, ""⟩ := by
  refine ⟨fun raw stat => ⟨parse_diff raw stat, rfl⟩, by decide, by decide⟩

/-- C5, counterexample: when the external tool completes with a non-zero
exit code but non-empty stdout and no checked request, `run_git` returns
that stdout, not the empty string the claim promises. -/
theorem claim_C5_counterexample :
    run_git (SubprocOutcome.completed "partial output" 1) false ≠ RunGitResult.ok "" := by
  decide

/-- C5, amended: `run_git` always returns a string and never raises except
when the executable cannot be located (the one propagated error); on
timeout it returns the empty string; a non-zero exit WITH a checked
request is swallowed into the empty string; a non-zero exit WITHOUT a
checked request returns whatever stdout was captured (not necessarily
empty). -/
theorem claim_C5_runner_amended :
    (∀ check, run_git SubprocOutcome.timeoutExpired check = RunGitResult.ok "") ∧
    (∀ out code, run_git (SubprocOutcome.completed out code) false = RunGitResult.ok out) ∧
    (∀ out code, code ≠ 0 → run_git (SubprocOutcome.completed out code) true = RunGitResult.ok "") ∧
    (∀ out, run_git (SubprocOutcome.completed out 0) true = RunGitResult.ok out) ∧
    (∀ check, run_git SubprocOutcome.otherError check = RunGitResult.ok "") ∧
    (∀ outcome check msg, run_git outcome check = RunGitResult.error msg →
      outcome = SubprocOutcome.fileNotFound) := by
  refine ⟨fun check => rfl, fun out code => by simp [run_git],
          fun out code hc => by simp [run_git, hc],
          fun out => by simp [run_git], fun check => rfl, ?_⟩
  intro outcome check msg h
  cases outcome with
  | completed out code =>
    simp only [run_git] at h
    split at h <;> simp_all
  | timeoutExpired => simp [run_git] at h
  | fileNotFound => rfl
  | otherError => simp [run_git] at h

/-- C5, witness for the amended contract: a checked non-zero exit yields
the empty string. -/
theorem claim_C5_runner_amended_witness :
    run_git (SubprocOutcome.completed "boom" 2) true = RunGitResult.ok "" :=
  claim_C5_runner_amended.2.2.1 "boom" 2 (by decide)

end GitDiff

namespace GitDiff

/-- A file dict satisfies the summation invariant. -/
def fileOK (f : FileDiff) : Bool :=
  (f.additions == (f.hunks.map Hunk.additions).sum) &&
  (f.deletions == (f.hunks.map Hunk.deletions).sum)

theorem finalize_fileOK (f : FileDiff) (hs : List Hunk) :
    fileOK (_finalize_file f hs) = true := by
  simp [fileOK, _finalize_file]

theorem withFile_files (s : ParseState) (g : FileDiff → FileDiff) :
    (withFile s g).files = s.files := rfl

theorem hunkHeaderStep_files (s : ParseState) (l : List Char) :
    (hunkHeaderStep s l).files = s.files := by
  unfold hunkHeaderStep
  rcases parseHunkHeader l with _ | ⟨os, oc, ns, nc, ctx⟩ <;>
    rcases s.curHunk with _ | h <;> rfl

theorem applyBody2_files (s : ParseState) (a : BodyAct) :
    (applyBody2 s a).files = s.files := by
  unfold applyBody2
  rcases s.curHunk with _ | h
  · rfl
  · rcases a with _ | c | c | c | c | _ <;> rfl

theorem stepRest_files (s : ParseState) (l : List Char) :
    (stepRest s l).files = s.files := by
  unfold stepRest
  cases hcl : classifyRest s.curFile.isSome s.inHunk s.curHunk.isSome l <;>
    simp only [hcl] <;>
    first
      | rfl
      | exact hunkHeaderStep_files ..
      | exact applyBody2_files ..
      | (cases hsp : searchPct l <;> simp only [hsp] <;> rfl)

theorem stepLine_all_fileOK (s : ParseState) (l : List Char)
    (hs : s.files.all fileOK = true) : (stepLine s l).files.all fileOK = true := by
  unfold stepLine
  split_ifs with hgit
  · rcases hcf : s.curFile with _ | f <;>
      simp [hcf, hs, List.all_append, finalize_fileOK]
  · rw [stepRest_files]; exact hs

theorem foldl_all_fileOK (ls : List (List Char)) (s : ParseState)
    (hs : s.files.all fileOK = true) :
    ((ls.foldl stepLine s).files.all fileOK) = true := by
  induction ls generalizing s with
  | nil => exact hs
  | cons l ls ih => exact ih (stepLine s l) (stepLine_all_fileOK s l hs)

/-- C1: for every input, every parsed file satisfies
`additions = sum of its hunks' additions` (and the same for deletions),
and the result's totals are the sums of the per-file values. -/
theorem claim_C1_summation (raw stat : String) :
    ((parse_diff raw stat).files.all (fun f =>
        (f.additions == (f.hunks.map Hunk.additions).sum) &&
        (f.deletions == (f.hunks.map Hunk.deletions).sum)) = true) ∧
    (parse_diff raw stat).total_additions =
      ((parse_diff raw stat).files.map FileDiff.additions).sum ∧
    (parse_diff raw stat).total_deletions =
      ((parse_diff raw stat).files.map FileDiff.deletions).sum := by
  refine ⟨?_, rfl, rfl⟩
  show (parse_diff raw stat).files.all fileOK = true
  unfold parse_diff
  have hfold := foldl_all_fileOK (splitNlAux [] raw.data) initState rfl
  rcases hcf : ((splitNlAux [] raw.data).foldl stepLine initState).curFile with _ | f <;>
    (simp only [hcf]; simp [List.all_append, hfold, finalize_fileOK])

end GitDiff

namespace GitDiff

theorem expectCh_pos (c : Char) (x : List Char) : expectCh c (c :: x) = some x := by
  simp [expectCh]

/-- Head of a list is not a digit (vacuously true for the empty list). -/
def headNotDigit : List Char → Prop
  | [] => True
  | c :: _ => c.isDigit = false

theorem takeDigitsAux_append (ds : List Char) (rest : List Char) (acc : Nat)
    (hds : ∀ c ∈ ds, c.isDigit = true) (hrest : headNotDigit rest) :
    takeDigitsAux acc (ds ++ rest) =
      (ds.foldl (fun a c => a * 10 + (c.toNat - 48)) acc, rest) := by
  induction ds generalizing acc with
  | nil =>
    cases rest with
    | nil => rfl
    | cons c cs =>
      simp only [headNotDigit] at hrest
      simp [takeDigitsAux, hrest]
  | cons d ds ih =>
    have hd : d.isDigit = true := hds d (by simp)
    simp only [List.cons_append, takeDigitsAux, hd, if_true, List.foldl_cons]
    exact ih _ fun c hc => hds c (List.mem_cons_of_mem d hc)

theorem takeDigits_append (ds : List Char) (rest : List Char)
    (hne : ds ≠ []) (hds : ∀ c ∈ ds, c.isDigit = true) (hrest : headNotDigit rest) :
    takeDigits (ds ++ rest) = some (valD ds, rest) := by
  cases ds with
  | nil => exact absurd rfl hne
  | cons d ds =>
    have hd : d.isDigit = true := hds d (by simp)
    simp only [List.cons_append, takeDigits, hd, if_true, valD, List.foldl_cons]
    rw [takeDigitsAux_append ds rest _ (fun c hc => hds c (List.mem_cons_of_mem d hc)) hrest]
    norm_num

/-- C6: `parse_diff` maps `@@ -1,1 +1,1 @@` and `@@ -1 +1 @@` to identical
hunks with `old_count = new_count = 1`; in general, a hunk header whose
ranges omit the count parses with the omitted count defaulted to 1. -/
theorem claim_C6_default_count :
    ((parse_diff "diff --git a/f b/f\n@@ -1,1 +1,1 @@" "").files.map FileDiff.hunks =
       [[⟨1, 1, 1, 1, "", [], 0, 0⟩]] ∧
     (parse_diff "diff --git a/f b/f\n@@ -1 +1 @@" "").files.map FileDiff.hunks =
       [[⟨1, 1, 1, 1, "", [], 0, 0⟩]]) ∧
    (∀ ds1 ds2 : List Char, ds1 ≠ [] → ds2 ≠ [] →
      (∀ c ∈ ds1, c.isDigit = true) → (∀ c ∈ ds2, c.isDigit = true) →
      parseHunkHeader
          ('@' :: '@' :: ' ' :: '-' :: (ds1 ++ ' ' :: '+' :: (ds2 ++ [' ', '@', '@']))) =
        some (valD ds1, 1, valD ds2, 1, "")) := by
  refine ⟨⟨by decide, by decide⟩, ?_⟩
  intro ds1 ds2 h1 h2 hd1 hd2
  have e1 := takeDigits_append ds1 (' ' :: '+' :: (ds2 ++ [' ', '@', '@'])) h1 hd1 (by
    simp [headNotDigit])
  have e2 := takeDigits_append ds2 [' ', '@', '@'] h2 hd2 (by simp [headNotDigit])
  have e3 : takeOptCount (' ' :: '+' :: (ds2 ++ [' ', '@', '@'])) =
      some (none, ' ' :: '+' :: (ds2 ++ [' ', '@', '@'])) := rfl
  have e4 : takeOptCount [' ', '@', '@'] = some (none, [' ', '@', '@']) := rfl
  simp only [parseHunkHeader, e1, e2, e3, e4, expectCh_pos, Option.getD]
  rfl

/-- C6, witness: the general default-count statement at `ds1 = "42"`,
`ds2 = "7"`. -/
theorem claim_C6_default_count_witness :
    parseHunkHeader ("@@ -42 +7 @@".data) = some (42, 1, 7, 1, "") :=
  (claim_C6_default_count.2 ['4', '2'] ['7'] (by decide) (by decide)
    (by decide) (by decide)).trans (by decide)

end GitDiff

namespace GitDiff

theorem bodyClassify_add (cs : List Char) (h : isPref ['+', '+'] cs = false) :
    bodyClassify ('+' :: cs) = BodyAct.add cs := by
  have e1 : isPref ['-', '-', '-'] ('+' :: cs) = false := rfl
  have e2 : isPref ['+', '+', '+'] ('+' :: cs) = isPref ['+', '+'] cs := rfl
  have e3 : isPref ['+'] ('+' :: cs) = true := rfl
  simp [bodyClassify, e1, e2, e3, h]

theorem bodyClassify_del (cs : List Char) (h : isPref ['-', '-'] cs = false) :
    bodyClassify ('-' :: cs) = BodyAct.del cs := by
  have e1 : isPref ['-', '-', '-'] ('-' :: cs) = isPref ['-', '-'] cs := rfl
  have e2 : isPref ['+', '+', '+'] ('-' :: cs) = false := rfl
  have e3 : isPref ['+'] ('-' :: cs) = false := rfl
  have e4 : isPref ['-'] ('-' :: cs) = true := rfl
  simp [bodyClassify, e1, e2, e3, e4, h]

theorem bodyClassify_drop (l : List Char) (hm : noMarkerHead l = true) :
    bodyClassify l = BodyAct.drop := by
  cases l with
  | nil => rfl
  | cons c cs =>
    simp only [noMarkerHead, Bool.not_eq_true', Bool.or_eq_false_iff] at hm
    obtain ⟨⟨⟨h1, h2⟩, h3⟩, h4⟩ := hm
    simp [bodyClassify, isPref, h1, h2, h3, h4]

theorem stepLine_not_git (s : ParseState) (l : List Char)
    (h1 : isPref ("diff --git ".data) l = false) : stepLine s l = stepRest s l := by
  unfold stepLine
  rw [h1]
  simp

theorem stepRest_body (s : ParseState) (l : List Char)
    (hcl : classifyRest s.curFile.isSome s.inHunk s.curHunk.isSome l = RestAct.body) :
    stepRest s l = applyBody2 s (bodyClassify l) := by
  unfold stepRest
  rw [hcl]

/-- C7: inside an open hunk, a body line is classified by its first
character with the marker stripped from the recorded content: `+rest`
(not `+++…`) appends an `add` line with content `rest` and bumps the
addition count, `-rest` (not `---…`) appends a `del` line and bumps the
deletion count, a space line appends a `ctx` line and a backslash line a
`noeol` line, neither touching any count; each new line is appended at
the end of the hunk's line list, so input order is preserved. -/
theorem claim_C7_body_lines (fs : List FileDiff) (f : FileDiff) (dh : List Hunk)
    (h : Hunk) (ca : Nat) (cs : List Char) :
    (isPref ['+', '+'] cs = false →
      stepLine ⟨fs, some f, dh, some h, ca, true⟩ ('+' :: cs) =
        ⟨fs, some f, dh,
          some { h with lines := h.lines ++ [⟨"add", String.mk cs⟩],
                        additions := h.additions + 1 }, ca, true⟩) ∧
    (isPref ['-', '-'] cs = false →
      stepLine ⟨fs, some f, dh, some h, ca, true⟩ ('-' :: cs) =
        ⟨fs, some f, dh,
          some { h with lines := h.lines ++ [⟨"del", String.mk cs⟩],
                        deletions := h.deletions + 1 }, ca, true⟩) ∧
    (stepLine ⟨fs, some f, dh, some h, ca, true⟩ (' ' :: cs) =
        ⟨fs, some f, dh,
          some { h with lines := h.lines ++ [⟨"ctx", String.mk cs⟩] }, ca, true⟩) ∧
    (stepLine ⟨fs, some f, dh, some h, ca, true⟩ ('\\' :: cs) =
        ⟨fs, some f, dh,
          some { h with lines := h.lines ++ [⟨"noeol", String.mk cs⟩] }, ca, true⟩) := by
  refine ⟨?_, ?_, rfl, rfl⟩
  · intro hcs
    have hred : stepLine ⟨fs, some f, dh, some h, ca, true⟩ ('+' :: cs) =
        applyBody2 ⟨fs, some f, dh, some h, ca, true⟩ (bodyClassify ('+' :: cs)) := rfl
    rw [hred, bodyClassify_add cs hcs]
    rfl
  · intro hcs
    have hred : stepLine ⟨fs, some f, dh, some h, ca, true⟩ ('-' :: cs) =
        applyBody2 ⟨fs, some f, dh, some h, ca, true⟩ (bodyClassify ('-' :: cs)) := rfl
    rw [hred, bodyClassify_del cs hcs]
    rfl

/-- C7, witness: `+hello` and `-world` inside an open hunk. -/
theorem claim_C7_body_lines_witness :
    (stepLine ⟨[], some (newFileDiff "f" "f"), [], some ⟨1, 1, 1, 1, "", [], 0, 0⟩, 0, true⟩
        ("+hello".data) =
      ⟨[], some (newFileDiff "f" "f"), [],
        some ⟨1, 1, 1, 1, "", [⟨"add", "hello"⟩], 1, 0⟩, 0, true⟩) ∧
    (stepLine ⟨[], some (newFileDiff "f" "f"), [], some ⟨1, 1, 1, 1, "", [], 0, 0⟩, 0, true⟩
        ("-world".data) =
      ⟨[], some (newFileDiff "f" "f"), [],
        some ⟨1, 1, 1, 1, "", [⟨"del", "world"⟩], 0, 1⟩, 0, true⟩) := by
  refine ⟨?_, ?_⟩
  · exact ((claim_C7_body_lines [] (newFileDiff "f" "f") [] ⟨1, 1, 1, 1, "", [], 0, 0⟩ 0
      ("hello".data)).1 (by decide)).trans (by decide)
  · exact ((claim_C7_body_lines [] (newFileDiff "f" "f") [] ⟨1, 1, 1, 1, "", [], 0, 0⟩ 0
      ("world".data)).2.1 (by decide)).trans (by decide)

/-- C10: inside an open hunk, a line starting with `---` or `+++`, an
empty line, and any line that matches none of the header prefixes and
whose first character is none of `+`, `-`, space, `\` leave the state
untouched: nothing is appended to any hunk and no count changes. -/
theorem claim_C10_dropped (fs : List FileDiff) (f : FileDiff) (dh : List Hunk)
    (h : Hunk) (ca : Nat) :
    (∀ rest : List Char,
      stepLine ⟨fs, some f, dh, some h, ca, true⟩ ('-' :: '-' :: '-' :: rest) =
        ⟨fs, some f, dh, some h, ca, true⟩) ∧
    (∀ rest : List Char,
      stepLine ⟨fs, some f, dh, some h, ca, true⟩ ('+' :: '+' :: '+' :: rest) =
        ⟨fs, some f, dh, some h, ca, true⟩) ∧
    (stepLine ⟨fs, some f, dh, some h, ca, true⟩ [] = ⟨fs, some f, dh, some h, ca, true⟩) ∧
    (∀ l : List Char, headerish l = false → noMarkerHead l = true →
      stepLine ⟨fs, some f, dh, some h, ca, true⟩ l = ⟨fs, some f, dh, some h, ca, true⟩) := by
  refine ⟨fun rest => rfl, fun rest => rfl, rfl, ?_⟩
  intro l hh hm
  simp only [headerish, Bool.or_eq_false_iff] at hh
  obtain ⟨⟨⟨⟨⟨⟨⟨⟨⟨⟨h1, h2⟩, h3⟩, h4⟩, h5⟩, h6⟩, h7⟩, h8⟩, h9⟩, h10⟩, h11⟩ := hh
  rw [stepLine_not_git _ _ h1]
  rw [stepRest_body _ _ (by simp [classifyRest, h2, h3, h4, h5, h6, h7, h8, h9, h10, h11])]
  rw [bodyClassify_drop l hm]
  rfl

/-- C10, witness: inside an open hunk, the line `x` (no marker, no header
prefix) is dropped without touching the state. -/
theorem claim_C10_dropped_witness :
    stepLine ⟨[], some (newFileDiff "f" "f"), [], some ⟨1, 1, 1, 1, "", [], 0, 0⟩, 0, true⟩
        ("x".data) =
      ⟨[], some (newFileDiff "f" "f"), [], some ⟨1, 1, 1, 1, "", [], 0, 0⟩, 0, true⟩ :=
  (claim_C10_dropped [] (newFileDiff "f" "f") [] ⟨1, 1, 1, 1, "", [], 0, 0⟩ 0).2.2.2
    ("x".data) (by decide) (by decide)

end GitDiff

namespace GitDiff

/-- C8: the relative-time formatter buckets at `< 60s` to "just now", then
minutes, hours, days, weeks (7 days), months (fixed 30 days) and years
(fixed 365 days), with the plural "s" exactly when the count is not 1;
in particular 30 seconds ago is "just now", 90 seconds ago is
"1 minute ago" and 7200 seconds ago is "2 hours ago" (see the witness). -/
theorem claim_C8_relative_time (now ts : Nat) (hts : ts ≠ 0) :
    ((now : Int) - (ts : Int) < 60 → _relative_time now ts = "just now") ∧
    (60 ≤ (now : Int) - (ts : Int) → (now : Int) - (ts : Int) < 3600 →
      _relative_time now ts =
        toString (Int.ediv ((now : Int) - (ts : Int)) 60) ++ " minute" ++
          (if Int.ediv ((now : Int) - (ts : Int)) 60 ≠ 1 then "s" else "") ++ " ago") ∧
    (3600 ≤ (now : Int) - (ts : Int) → (now : Int) - (ts : Int) < 24 * 3600 →
      _relative_time now ts =
        toString (Int.ediv ((now : Int) - (ts : Int)) 3600) ++ " hour" ++
          (if Int.ediv ((now : Int) - (ts : Int)) 3600 ≠ 1 then "s" else "") ++ " ago") ∧
    (86400 ≤ (now : Int) - (ts : Int) → (now : Int) - (ts : Int) < 7 * 86400 →
      _relative_time now ts =
        toString (Int.ediv ((now : Int) - (ts : Int)) 86400) ++ " day" ++
          (if Int.ediv ((now : Int) - (ts : Int)) 86400 ≠ 1 then "s" else "") ++ " ago") ∧
    (7 * 86400 ≤ (now : Int) - (ts : Int) → (now : Int) - (ts : Int) < 30 * 86400 →
      _relative_time now ts =
        toString (Int.ediv ((now : Int) - (ts : Int)) (7 * 86400)) ++ " week" ++
          (if Int.ediv ((now : Int) - (ts : Int)) (7 * 86400) ≠ 1 then "s" else "") ++ " ago") ∧
    (30 * 86400 ≤ (now : Int) - (ts : Int) → (now : Int) - (ts : Int) < 365 * 86400 →
      _relative_time now ts =
        toString (Int.ediv ((now : Int) - (ts : Int)) (30 * 86400)) ++ " month" ++
          (if Int.ediv ((now : Int) - (ts : Int)) (30 * 86400) ≠ 1 then "s" else "") ++ " ago") ∧
    (365 * 86400 ≤ (now : Int) - (ts : Int) →
      _relative_time now ts =
        toString (Int.ediv ((now : Int) - (ts : Int)) (365 * 86400)) ++ " year" ++
          (if Int.ediv ((now : Int) - (ts : Int)) (365 * 86400) ≠ 1 then "s" else "") ++ " ago") := by
  refine ⟨?_, ?_, ?_, ?_, ?_, ?_, ?_⟩
  · intro h1
    unfold _relative_time
    rw [if_neg hts, if_pos h1]
  · intro h1 h2
    unfold _relative_time
    rw [if_neg hts, if_neg (by omega), if_pos h2]
  · intro h1 h2
    unfold _relative_time
    rw [if_neg hts, if_neg (by omega), if_neg (by omega), if_pos (by omega)]
  · intro h1 h2
    unfold _relative_time
    rw [if_neg hts, if_neg (by omega), if_neg (by omega), if_neg (by omega),
        if_pos (by omega)]
  · intro h1 h2
    unfold _relative_time
    rw [if_neg hts, if_neg (by omega), if_neg (by omega), if_neg (by omega),
        if_neg (by omega), if_pos (by omega)]
    norm_num
  · intro h1 h2
    unfold _relative_time
    rw [if_neg hts, if_neg (by omega), if_neg (by omega), if_neg (by omega),
        if_neg (by omega), if_neg (by omega), if_pos (by omega)]
    norm_num
  · intro h1
    unfold _relative_time
    rw [if_neg hts, if_neg (by omega), if_neg (by omega), if_neg (by omega),
        if_neg (by omega), if_neg (by omega), if_neg (by omega)]
    norm_num

/-- C8, witness: 30 seconds ago is "just now", 90 seconds ago is
"1 minute ago", 7200 seconds ago is "2 hours ago". -/
theorem claim_C8_relative_time_witness :
    _relative_time 1000030 1000000 = "just now" ∧
    _relative_time 1000090 1000000 = "1 minute ago" ∧
    _relative_time 1007200 1000000 = "2 hours ago" := by
  refine ⟨?_, ?_, ?_⟩
  · exact (claim_C8_relative_time 1000030 1000000 (by decide)).1 (by decide)
  · exact ((claim_C8_relative_time 1000090 1000000 (by decide)).2.1 (by decide)
      (by decide)).trans (by decide)
  · exact ((claim_C8_relative_time 1007200 1000000 (by decide)).2.2.1 (by decide)
      (by decide)).trans (by decide)

end GitDiff
